import Mathlib

/-!
Verification of the FlashMaster question-bank application.

The definitions below are a shallow embedding of the TypeScript sources:
`src/App.tsx`, `src/components/QuizRunner.tsx`, `src/components/ExamRunner.tsx`,
`src/components/Importer.tsx` and `src/services/geminiService.ts`.
Strings are Lean `String`s manipulated through their character lists; the
JavaScript regular expressions used by `isMatch` are translated into explicit
character-class scans; browser storage is modelled as the (parsed) content of
the single key `flashmaster_questions`.
-/

namespace FlashMaster

/-! ## Character classes used by the regexes in `isMatch`

The regexes are `^([A-Za-z])[\.\、\s]`, `^([A-Za-z0-9]+)[\.\、\s]+` and
`^[A-Za-z]$`.  `Char.isAlpha` / `Char.isAlphanum` are exactly the ASCII
classes `[A-Za-z]` / `[A-Za-z0-9]`; whitespace models `\s`. -/

/-- The separator class `[\.\、\s]` appearing after an option prefix. -/
def isSep (c : Char) : Bool :=
  c == '.' || c == '、' || c.isWhitespace

/-- JavaScript `String.prototype.trim`: drop whitespace from both ends (on char lists). -/
def trimChars (l : List Char) : List Char :=
  ((l.dropWhile Char.isWhitespace).reverse.dropWhile Char.isWhitespace).reverse

/-- JavaScript `String.prototype.toLowerCase` (ASCII, as in the matched content). -/
def lowerL (l : List Char) : List Char := l.map Char.toLower

/-- Helper `getPrefix` from QuizRunner/ExamRunner: `s.match(/^([A-Za-z])[\.\、\s]/)`
returns the leading letter, upper-cased, when it is followed by a separator. -/
def getPrefixL : List Char → Option Char
  | a :: b :: _ => if a.isAlpha && isSep b then some a.toUpper else none
  | _ => none

/-- Helper `getContent` from QuizRunner/ExamRunner:
`s.replace(regex, empty).trim()` with regex `^([A-Za-z0-9]+)[\.\、\s]+`.  The two character
classes are disjoint, so the greedy match strips the maximal leading
alphanumeric run followed by the maximal nonempty separator run. -/
def contentL (l : List Char) : List Char :=
  let alnums := l.takeWhile Char.isAlphanum
  let rest := l.dropWhile Char.isAlphanum
  let seps := rest.takeWhile isSep
  let rest2 := rest.dropWhile isSep
  if !alnums.isEmpty && !seps.isEmpty then trimChars rest2 else trimChars l

/-- Test `/^[A-Za-z]$/.test s` - the (trimmed) string is a single ASCII letter. -/
def isSingleLetter : List Char → Bool
  | [c] => c.isAlpha
  | _ => false

/-- The prefix-direction test of `isMatch` step 2: `y` is a single letter and
it equals (upper-cased) the letter prefix of `x`. -/
def prefixMatches (x y : List Char) : Bool :=
  match y with
  | [c] => c.isAlpha && getPrefixL x == some c.toUpper
  | _ => false

/-- Function `isMatch` from `QuizRunner.tsx` / `ExamRunner.tsx` (the two copies are
identical).  The sequence of `if (...) return true` tests is rendered as a
disjunction of the same conditions in the same order:
empty-string guard, exact equality, case-insensitive equality, prefix match
in both directions, then content-only comparison (which in the source
requires both extracted contents to be nonempty). -/
def isMatch (option correctAnswer : String) : Bool :=
  if option.data.isEmpty || correctAnswer.data.isEmpty then false
  else
    let o := trimChars option.data
    let c := trimChars correctAnswer.data
    o == c
      || lowerL o == lowerL c
      || prefixMatches o c
      || prefixMatches c o
      || (!(contentL o).isEmpty && !(contentL c).isEmpty
            && lowerL (contentL o) == lowerL (contentL c))

/-- The matching relation exactly as the specification sentence words it:
after trimming, equal ignoring case, or one string is a single letter equal
(ignoring case) to the letter prefix of the other, or equal ignoring case
after stripping the letter/number prefixes - with no requirement that the
stripped contents be nonempty; false whenever either string is empty. -/
def specIsMatch (option correctAnswer : String) : Bool :=
  if option.data.isEmpty || correctAnswer.data.isEmpty then false
  else
    let o := trimChars option.data
    let c := trimChars correctAnswer.data
    lowerL o == lowerL c
      || prefixMatches o c
      || prefixMatches c o
      || lowerL (contentL o) == lowerL (contentL c)

/-- The amended matching relation: as `specIsMatch`, but the content-only
comparison additionally requires both stripped contents to be nonempty. -/
def amendedIsMatch (option correctAnswer : String) : Bool :=
  if option.data.isEmpty || correctAnswer.data.isEmpty then false
  else
    let o := trimChars option.data
    let c := trimChars correctAnswer.data
    lowerL o == lowerL c
      || prefixMatches o c
      || prefixMatches c o
      || (!(contentL o).isEmpty && !(contentL c).isEmpty
            && lowerL (contentL o) == lowerL (contentL c))

/-! ## Data model (`src/types.ts`)

A `Question` record.  Optional TypeScript fields whose absence the code
distinguishes from a present value are `Option`s (`type` can be left
`undefined` by the AI import path); the two boolean flags are `Bool`s,
the JavaScript `undefined` behaving as `false` wherever they are read. -/

structure Question where
  id : String
  type : Option String
  text : String
  options : List String
  correctAnswer : String
  explanation : Option String
  tags : List String
  mastered : Bool
  inMistakeBook : Bool
deriving DecidableEq, Repr

/-- A raw record as it arrives from `JSON.parse` (JSON import tab) or from the
parsed generative-service reply: the fields the import code inspects or
overrides, before normalisation. -/
structure RawQuestion where
  id : Option String
  type : Option String
  text : String
  options : List String
  correctAnswer : String
  explanation : Option String
  tags : List String
  mastered : Option Bool
  inMistakeBook : Option Bool
deriving DecidableEq, Repr

/-- JavaScript `x || d` on an optional string: `undefined` and `""` are
falsy and fall back to the default. -/
def jsStr (x : Option String) (d : String) : String :=
  match x with
  | none => d
  | some s => if s = "" then d else s

/-! ## JSON import (`src/components/Importer.tsx`, `handleJsonImport`)

`crypto.randomUUID()` is modelled by a supply `uuid : Nat → String`, the
`n`-th call returning `uuid n`.  A version-4 UUID string is never empty;
theorems that need this take it as a hypothesis on the supply. -/

/-- The per-record normalisation inside `handleJsonImport`:
`{...q, id: q.id || crypto.randomUUID(), mastered: false,
inMistakeBook: false, type: q.type-or-default}`, the default type being `open-ended`. -/
def convertRaw (uuid : Nat → String) (n : Nat) (r : RawQuestion) : Question :=
  { id := jsStr r.id (uuid n)
    type := some (jsStr r.type "open-ended")
    text := r.text
    options := r.options
    correctAnswer := r.correctAnswer
    explanation := r.explanation
    tags := r.tags
    mastered := false
    inMistakeBook := false }

/-- Loop `questions.map(...)` of `handleJsonImport`, threading the UUID supply. -/
def importRaws (uuid : Nat → String) : Nat → List RawQuestion → List Question
  | _, [] => []
  | n, r :: rs => convertRaw uuid n r :: importRaws uuid (n + 1) rs

/-- Function `handleJsonImport` on an already-parsed JSON array of records. -/
def handleJsonImport (uuid : Nat → String) (raws : List RawQuestion) :
    List Question :=
  importRaws uuid 0 raws

/-- Function `handleImport` from `App.tsx`: `[...questions, ...newQs]`. -/
def handleImport (bank newQs : List Question) : List Question :=
  bank ++ newQs

/-! ## Flag operations (`src/App.tsx`) -/

/-- Function `handleDelete`: `questions.filter(q => q.id !== id)`. -/
def handleDelete (bank : List Question) (id : String) : List Question :=
  bank.filter (fun q => q.id ≠ id)

/-- Function `handleMasterQuestion`:
`questions.map(q => q.id === id ? {...q, mastered: true, inMistakeBook: false} : q)`. -/
def handleMasterQuestion (bank : List Question) (id : String) : List Question :=
  bank.map (fun q =>
    if q.id = id then { q with mastered := true, inMistakeBook := false } else q)

/-- Function `handleMistake`: for the matching question,
`{...q, inMistakeBook: true, mastered: false}`. -/
def handleMistake (bank : List Question) (id : String) : List Question :=
  bank.map (fun q =>
    if q.id = id then { q with inMistakeBook := true, mastered := false } else q)

/-- Function `handleExamComplete`: returns unchanged when `wrongIds` is empty,
otherwise flags every question whose id occurs in `wrongIds`. -/
def handleExamComplete (bank : List Question) (wrongIds : List String) :
    List Question :=
  if wrongIds.isEmpty then bank
  else bank.map (fun q =>
    if wrongIds.contains q.id then
      { q with inMistakeBook := true, mastered := false }
    else q)

/-! ## Mock exam selection (`src/App.tsx`, `startMockExam`)

`[...questions].sort(() => 0.5 - Math.random())` rearranges the array into
some permutation of it; the permutation actually produced is taken as an
argument `shuffled` constrained by `shuffled.Perm questions`. -/

/-- Function `startMockExam`: take the first `min(30, questions.length)` elements of
the shuffled copy of the bank. -/
def startMockExam (questions shuffled : List Question) : List Question :=
  shuffled.take (min 30 questions.length)

/-! ## Exam grading (`src/components/ExamRunner.tsx`, `handleSubmit`)

The `answers` record is a partial map from question id to the entered
string; an id never answered maps to `none` (JavaScript `undefined`), a
cleared textarea maps to `some ""`.  Both are falsy where the code tests
`userAnswer && ...`. -/

/-- The per-question test of the grading loop:
`userAnswer && isMatch(userAnswer, q.correctAnswer)`. -/
def answeredCorrectly (answers : String → Option String) (q : Question) : Bool :=
  match answers q.id with
  | none => false
  | some a => !a.data.isEmpty && isMatch a q.correctAnswer

/-- The result `handleSubmit` computes and publishes: the score shown in the
header and the `wrong` array passed to `onComplete`. -/
structure ExamOutcome where
  correctCount : Nat
  wrongIds : List String
  score : Nat
deriving DecidableEq, Repr

/-- The `questions.forEach` accumulation of `handleSubmit`: count a correct
answer, otherwise push the question id onto `wrong`. -/
def gradePass (answers : String → Option String) (qs : List Question) :
    Nat × List String :=
  qs.foldl
    (fun acc q =>
      if answeredCorrectly answers q then (acc.1 + 1, acc.2)
      else (acc.1, acc.2 ++ [q.id]))
    (0, [])

/-- Function `handleSubmit`: one grading pass, then
`Math.round((correctCount / questions.length) * 100)`.  The arithmetic is
modelled exactly over the rationals: `Math.round` rounds half up, and for
`0 ≤ c ≤ n` the rounded percentage is the natural number
`(200*c + n) / (2*n)`. -/
def handleSubmit (qs : List Question) (answers : String → Option String) :
    ExamOutcome :=
  let g := gradePass answers qs
  { correctCount := g.1
    wrongIds := g.2
    score := (200 * g.1 + qs.length) / (2 * qs.length) }

/-! ## Generative-service reply handling (`src/services/geminiService.ts`)

The network call and the prompt are outside the embedding; what the claims
are about is how the reply text is handled.  After `cleanJsonString`, the
reply falls into one of four shapes as far as the code can distinguish:
`JSON.parse` throws; it parses but `parsed.questions` is absent (falsy, so
`|| []` yields an empty array); `parsed.questions` is present but not an
array (`Array.isArray` fails, `throw`); or it is an array of records. -/

inductive GeminiReply where
  | unparsable : GeminiReply
  | objNoQuestions : GeminiReply
  | questionsNonArray : GeminiReply
  | questionsArr : List RawQuestion → GeminiReply
deriving DecidableEq, Repr

/-- Whether the reply parses to a JSON object containing a `questions`
array. -/
def hasQuestionsArray : GeminiReply → Bool
  | .questionsArr _ => true
  | _ => false

/-- The per-record normalisation shared by `generateQuestionsFromTopic` and
`parseRawTextToQuestions`:
`{...q, id: crypto.randomUUID(), mastered: false, inMistakeBook: false,
options: q.type === QuestionType.OpenEnded ? [] : q.options}`. -/
def convertAiRaw (uuid : Nat → String) (n : Nat) (r : RawQuestion) : Question :=
  { id := uuid n
    type := r.type
    text := r.text
    options := if r.type = some "open-ended" then [] else r.options
    correctAnswer := r.correctAnswer
    explanation := r.explanation
    tags := r.tags
    mastered := false
    inMistakeBook := false }

/-- Loop `questions.map(...)` of the AI paths, threading the UUID supply. -/
def importAiRaws (uuid : Nat → String) : Nat → List RawQuestion → List Question
  | _, [] => []
  | n, r :: rs => convertAiRaw uuid n r :: importAiRaws uuid (n + 1) rs

/-- The reply-parsing stage of `generateQuestionsFromTopic`: the `try` block
around `JSON.parse`/`Array.isArray`/`map`, whose `catch` rethrows the fixed
error message. -/
def generateQuestionsFromTopic (uuid : Nat → String) (reply : GeminiReply) :
    Except String (List Question) :=
  match reply with
  | .unparsable => .error "AI 返回格式有误，请重试。"
  | .objNoQuestions => .ok []
  | .questionsNonArray => .error "AI 返回格式有误，请重试。"
  | .questionsArr raws => .ok (importAiRaws uuid 0 raws)

/-- The reply-parsing stage of `parseRawTextToQuestions`: same logic, its own
error message. -/
def parseRawTextToQuestions (uuid : Nat → String) (reply : GeminiReply) :
    Except String (List Question) :=
  match reply with
  | .unparsable => .error "AI 解析失败，请确保文本内容清晰。"
  | .objNoQuestions => .ok []
  | .questionsNonArray => .error "AI 解析失败，请确保文本内容清晰。"
  | .questionsArr raws => .ok (importAiRaws uuid 0 raws)

/-- Function `handleAiProcessing` from `Importer.tsx` composed with `App.handleImport`:
on a thrown error set the error string; on an empty result set the
no-questions error; otherwise import into the bank.  Returns the bank
afterwards and the error string shown (if any). -/
def handleAiProcessing (bank : List Question)
    (result : Except String (List Question)) :
    List Question × Option String :=
  match result with
  | .error e => (bank, some e)
  | .ok qs =>
      if qs.isEmpty then (bank, some "AI 无法生成任何题目，请尝试不同的输入。")
      else (handleImport bank qs, none)

/-! ## Application state and persistence (`src/App.tsx`)

`localStorage` holds one key, `flashmaster_questions`, whose value is
`JSON.stringify` of a question list.  `JSON.stringify` is injective on
question lists, so the slot is modelled by the list it serialises
(`none` when the key is absent). -/

structure AppState where
  questions : List Question
  storage : Option (List Question)
deriving DecidableEq, Repr

/-- Function `saveQuestions`: `setQuestions(newQuestions)` and
`localStorage.setItem(LOCAL_STORAGE_KEY, JSON.stringify(newQuestions))`. -/
def saveQuestions (_st : AppState) (newQuestions : List Question) : AppState :=
  { questions := newQuestions, storage := some newQuestions }

/-- Function `handleImport` at the state level. -/
def appHandleImport (st : AppState) (newQs : List Question) : AppState :=
  saveQuestions st (handleImport st.questions newQs)

/-- Function `handleDelete` at the state level (after the user confirms). -/
def appHandleDelete (st : AppState) (id : String) : AppState :=
  saveQuestions st (handleDelete st.questions id)

/-- Function `handleMasterQuestion` at the state level. -/
def appHandleMaster (st : AppState) (id : String) : AppState :=
  saveQuestions st (handleMasterQuestion st.questions id)

/-- Function `handleMistake` at the state level. -/
def appHandleMistake (st : AppState) (id : String) : AppState :=
  saveQuestions st (handleMistake st.questions id)

/-- Function `handleExamComplete` at the state level: the early return on an empty
`wrongIds` skips the save. -/
def appHandleExamComplete (st : AppState) (wrongIds : List String) : AppState :=
  if wrongIds.isEmpty then st
  else saveQuestions st (handleExamComplete st.questions wrongIds)

/-- The persistence invariant: the stored value is the serialisation of the
current in-memory question list. -/
def inSync (st : AppState) : Prop :=
  st.storage = some st.questions

instance (st : AppState) : Decidable (inSync st) := by
  unfold inSync; infer_instance

/-- The mutual-exclusion invariant on the two flags: no question is both
mastered and in the mistake book. -/
def flagsExclusive (bank : List Question) : Prop :=
  ∀ q ∈ bank, ¬(q.mastered = true ∧ q.inMistakeBook = true)

instance (bank : List Question) : Decidable (flagsExclusive bank) := by
  unfold flagsExclusive; infer_instance

/-! ## Concrete sample data used by the witness theorems -/

/-- A sample UUID supply for witnesses. -/
def uuidSample : Nat → String := fun _ => "u"

/-- A sample multiple-choice question, answer A. -/
def qA : Question :=
  { id := "1", type := some "multiple-choice", text := "Q1"
    options := ["A. x", "B. y"], correctAnswer := "A"
    explanation := none, tags := [], mastered := false, inMistakeBook := false }

/-- A sample multiple-choice question, answer B. -/
def qB : Question := { qA with id := "2", correctAnswer := "B" }

/-- A sample multiple-choice question, answer C. -/
def qC : Question := { qA with id := "3", correctAnswer := "C" }

/-- A sample exam answer map: question 1 and 2 answered with the correct
option text, question 3 left unanswered. -/
def ansSample : String → Option String := fun s =>
  if s = "1" then some "A. x" else if s = "2" then some "B. y" else none

/-- A sample question currently in the mistake book. -/
def qInMistake : Question := { qA with id := "m", inMistakeBook := true }

/-- A sample question currently mastered. -/
def qMastered : Question := { qA with id := "s", mastered := true }

/-- A sample raw record with every normalised field absent. -/
def rawSample : RawQuestion :=
  { id := none, type := none, text := "RQ", options := []
    correctAnswer := "a", explanation := none, tags := []
    mastered := none, inMistakeBook := none }

/-- A sample application state satisfying the persistence invariant. -/
def stSample : AppState := { questions := [qA], storage := some [qA] }

/-! ## Sanity checks of the `isMatch` embedding on concrete pairs -/

example : isMatch "A. Apple" "Apple" = true := by decide
example : isMatch "A. Apple" "A" = true := by decide
example : isMatch "a" "A. Apple" = true := by decide
example : isMatch "apple" "APPLE " = true := by decide
example : isMatch "A. Apple" "B. Apple" = true := by decide
example : isMatch "1. Apple" "2. Apple" = true := by decide
example : isMatch "A. Apple" "B. Pear" = false := by decide
example : isMatch "" "x" = false := by decide

/-! ## Helper lemmas -/

/-- Exact equality is absorbed by case-insensitive equality: the first two
return-true tests of `isMatch` collapse to the second. -/
theorem beq_absorbed_by_lower (o c : List Char) :
    ((o == c) || (lowerL o == lowerL c)) = (lowerL o == lowerL c) := by
  cases h : o == c
  · simp
  · have hoc := eq_of_beq h
    subst hoc
    simp

/-! ## C1 -/

/-- C1, counterexample to the claim as stated: for the pair `"A."`, `"B."`
both stripped contents are empty, so the claimed content-only comparison
succeeds while `isMatch` (which demands nonempty contents) returns false. -/
theorem isMatch_claim_counterexample :
    specIsMatch "A." "B." = true ∧ isMatch "A." "B." = false := by
  decide

/-- C1 (amended): `isMatch` returns true exactly when, after trimming, the
two strings are equal ignoring case, or one string is a single letter equal
(ignoring case) to the letter prefix of the other, or the stripped contents
of the two strings are both nonempty and equal ignoring case; it returns
false for every other pair and whenever either string is empty. -/
theorem isMatch_eq_amended_spec (option correctAnswer : String) :
    isMatch option correctAnswer = amendedIsMatch option correctAnswer := by
  unfold isMatch amendedIsMatch
  by_cases h : (option.data.isEmpty || correctAnswer.data.isEmpty) = true
  · simp [h]
  · simp only [if_neg h]
    simp only [beq_absorbed_by_lower]

/-! ## C2 -/

/-- The single `forEach` pass of `handleSubmit` computes the number of
correctly answered questions and, in order, the ids of the rest. -/
theorem gradePass_eq (answers : String → Option String) (qs : List Question) :
    gradePass answers qs =
      (qs.countP (answeredCorrectly answers),
       (qs.filter (fun q => !answeredCorrectly answers q)).map Question.id) := by
  have key : ∀ (qs : List Question) (acc : Nat × List String),
      qs.foldl
        (fun acc q =>
          if answeredCorrectly answers q then (acc.1 + 1, acc.2)
          else (acc.1, acc.2 ++ [q.id]))
        acc
      = (acc.1 + qs.countP (answeredCorrectly answers),
         acc.2 ++ (qs.filter (fun q => !answeredCorrectly answers q)).map Question.id) := by
    intro qs
    induction qs with
    | nil => intro acc; simp
    | cons q qs ih =>
        intro acc
        by_cases h : answeredCorrectly answers q
        · simp [List.countP_cons, List.filter_cons, h, ih]
          omega
        · simp [List.countP_cons, List.filter_cons, h, ih]
  unfold gradePass
  rw [key]
  simp

/-- C2: for every non-empty exam question list and every answer map, the
submitted exam counts, in one grading pass, the questions whose recorded
answer matches their correct answer, and reports as score the percentage of
correct answers rounded (half up) to the nearest integer. -/
theorem handleSubmit_score (qs : List Question)
    (answers : String → Option String) (h : qs ≠ []) :
    (handleSubmit qs answers).correctCount
        = qs.countP (answeredCorrectly answers) ∧
    (handleSubmit qs answers).score
        = ⌊100 * (qs.countP (answeredCorrectly answers) : ℚ) / (qs.length : ℚ)
            + 1 / 2⌋₊ := by
  have hn : qs.length ≠ 0 := by
    simpa [List.length_eq_zero] using h
  constructor
  · unfold handleSubmit
    rw [gradePass_eq]
  · unfold handleSubmit
    rw [gradePass_eq]
    have hq : (100 * (qs.countP (answeredCorrectly answers) : ℚ) / (qs.length : ℚ)
          + 1 / 2)
        = ((200 * qs.countP (answeredCorrectly answers) + qs.length : ℕ) : ℚ)
            / ((2 * qs.length : ℕ) : ℚ) := by
      have hq0 : ((qs.length : ℚ)) ≠ 0 := by
        exact_mod_cast hn
      push_cast
      field_simp
      ring
    rw [hq, Nat.floor_div_eq_div]

/-- C2, witness: a concrete three-question exam with two correct answers
scores `round(200/3) = 67`. -/
theorem handleSubmit_score_witness :
    ([qA, qB, qC] ≠ [] ∧
      (handleSubmit [qA, qB, qC] ansSample).correctCount
          = [qA, qB, qC].countP (answeredCorrectly ansSample) ∧
      (handleSubmit [qA, qB, qC] ansSample).score
          = ⌊100 * ([qA, qB, qC].countP (answeredCorrectly ansSample) : ℚ)
                / (([qA, qB, qC] : List Question).length : ℚ) + 1 / 2⌋₊) :=
  ⟨by decide, handleSubmit_score [qA, qB, qC] ansSample (by decide)⟩

/-! ## C3 -/

/-- Complementary counts: failed plus passed questions exhaust the list. -/
theorem countP_not_add_countP (p : Question → Bool) (l : List Question) :
    (l.filter (fun a => !p a)).length + l.countP p = l.length := by
  induction l with
  | nil => simp
  | cons a l ih =>
      by_cases h : p a <;>
        simp [List.filter_cons, List.countP_cons, h] <;> omega

/-- C3: after an exam completes, every question in the bank whose id is among
the missed items has `inMistakeBook` set and `mastered` cleared, every
question not missed is unchanged, and the number of missed items plus the
number of correct answers equals the number of exam questions. -/
theorem handleExamComplete_flags (bank : List Question) (wrongIds : List String)
    (qs : List Question) (answers : String → Option String)
    (i : Nat) (q : Question) (hq : bank[i]? = some q) :
    (q.id ∈ wrongIds →
        (handleExamComplete bank wrongIds)[i]?
          = some { q with inMistakeBook := true, mastered := false }) ∧
    (q.id ∉ wrongIds →
        (handleExamComplete bank wrongIds)[i]? = some q) ∧
    (handleSubmit qs answers).wrongIds.length
        + (handleSubmit qs answers).correctCount = qs.length := by
  refine ⟨?_, ?_, ?_⟩
  · intro hmem
    unfold handleExamComplete
    have hne : wrongIds.isEmpty = false := by
      cases wrongIds with
      | nil => cases hmem
      | cons a l => rfl
    simp only [hne, Bool.false_eq_true, if_false, List.getElem?_map, hq,
      Option.map_some']
    have hc : wrongIds.contains q.id = true := List.elem_eq_true_of_mem hmem
    rw [if_pos hc]
  · intro hmem
    unfold handleExamComplete
    by_cases he : wrongIds.isEmpty
    · simp [he, hq]
    · have hne2 : wrongIds.isEmpty = false := by
        cases h2 : wrongIds.isEmpty with
        | false => rfl
        | true => exact absurd h2 he
      have hc : ¬(wrongIds.contains q.id = true) := by
        simpa using hmem
      simp only [hne2, Bool.false_eq_true, if_false, List.getElem?_map, hq,
        Option.map_some']
      rw [if_neg hc]
  · unfold handleSubmit
    rw [gradePass_eq]
    simp only [List.length_map]
    exact countP_not_add_countP (answeredCorrectly answers) qs

/-- C3, witness: a concrete bank, missed-id list and graded exam. -/
theorem handleExamComplete_flags_witness :
    (([qInMistake, qMastered] : List Question)[0]? = some qInMistake ∧
      ((qInMistake.id ∈ ["m"] →
          (handleExamComplete [qInMistake, qMastered] ["m"])[0]?
            = some { qInMistake with inMistakeBook := true, mastered := false }) ∧
        (qInMistake.id ∉ ["m"] →
          (handleExamComplete [qInMistake, qMastered] ["m"])[0]?
            = some qInMistake) ∧
        (handleSubmit [qA] ansSample).wrongIds.length
            + (handleSubmit [qA] ansSample).correctCount
          = ([qA] : List Question).length)) :=
  ⟨by decide,
    handleExamComplete_flags [qInMistake, qMastered] ["m"] [qA] ansSample 0
      qInMistake (by decide)⟩

/-! ## C4 -/

/-- C4: for every non-empty question bank, starting a mock exam selects
exactly `min 30 (bank size)` questions, each an element of the bank, and no
element of the bank is selected more often than it occurs (in particular a
duplicate-free bank yields a duplicate-free selection). -/
theorem startMockExam_sample (qs shuffled : List Question)
    (hne : qs ≠ []) (hperm : shuffled.Perm qs) :
    (startMockExam qs shuffled).length = min 30 qs.length ∧
    (∀ q ∈ startMockExam qs shuffled, q ∈ qs) ∧
    (∀ a : Question, (startMockExam qs shuffled).count a ≤ qs.count a) ∧
    (qs.Nodup → (startMockExam qs shuffled).Nodup) := by
  have hlen : shuffled.length = qs.length := hperm.length_eq
  refine ⟨?_, ?_, ?_, ?_⟩
  · unfold startMockExam
    rw [List.length_take, hlen]
    exact Nat.min_eq_left (Nat.min_le_right 30 qs.length)
  · intro q hmem
    exact hperm.subset (List.take_subset _ _ hmem)
  · intro a
    calc (startMockExam qs shuffled).count a
        ≤ shuffled.count a := (List.take_sublist _ _).count_le a
      _ = qs.count a := hperm.count_eq a
  · intro hd
    exact List.Nodup.sublist (List.take_sublist _ _) (hperm.nodup_iff.mpr hd)

/-- C4, witness: a singleton bank shuffled to itself. -/
theorem startMockExam_sample_witness :
    (([qA] : List Question) ≠ [] ∧ ([qA] : List Question).Perm [qA] ∧
      ((startMockExam [qA] [qA]).length = min 30 ([qA] : List Question).length ∧
        (∀ q ∈ startMockExam [qA] [qA], q ∈ ([qA] : List Question)) ∧
        (∀ a : Question,
          (startMockExam [qA] [qA]).count a ≤ ([qA] : List Question).count a) ∧
        (([qA] : List Question).Nodup → (startMockExam [qA] [qA]).Nodup))) :=
  ⟨by decide, List.Perm.refl _,
    startMockExam_sample [qA] [qA] (by decide) (List.Perm.refl _)⟩

/-! ## C5 -/

/-- C5, counterexample: the two flags are not independent.  Marking the
question `qInMistake` (whose `inMistakeBook` is true) as mastered resets its
`inMistakeBook` flag to false, and marking the question `qMastered` (whose
`mastered` is true) as a mistake resets its `mastered` flag to false. -/
theorem flags_not_independent_counterexample :
    qInMistake.inMistakeBook = true ∧
    (handleMasterQuestion [qInMistake] "m").map Question.inMistakeBook
      = [false] ∧
    qMastered.mastered = true ∧
    (handleMistake [qMastered] "s").map Question.mastered = [false] := by
  decide

/-- C5 (amended): the flags are coupled, not independent - marking a
question mastered sets `mastered := true` and resets `inMistakeBook := false`
on the matching question, marking it as a mistake sets
`inMistakeBook := true` and resets `mastered := false`; every other field and
every other question is unchanged. -/
theorem masterAndMistake_coupled (bank : List Question) (id : String)
    (i : Nat) (q : Question) (hq : bank[i]? = some q) :
    (handleMasterQuestion bank id)[i]?
        = some (if q.id = id then
            { q with mastered := true, inMistakeBook := false } else q) ∧
    (handleMistake bank id)[i]?
        = some (if q.id = id then
            { q with inMistakeBook := true, mastered := false } else q) := by
  constructor
  · unfold handleMasterQuestion
    simp [List.getElem?_map, hq]
  · unfold handleMistake
    simp [List.getElem?_map, hq]

/-- C5, witness for the amended statement: the matching question of a
two-question bank gets the coupled flag update and the other survives. -/
theorem masterAndMistake_coupled_witness :
    (([qInMistake, qMastered] : List Question)[0]? = some qInMistake ∧
      ((handleMasterQuestion [qInMistake, qMastered] "m")[0]?
          = some (if qInMistake.id = "m" then
              { qInMistake with mastered := true, inMistakeBook := false }
            else qInMistake) ∧
        (handleMistake [qInMistake, qMastered] "m")[0]?
          = some (if qInMistake.id = "m" then
              { qInMistake with inMistakeBook := true, mastered := false }
            else qInMistake))) :=
  ⟨by decide,
    masterAndMistake_coupled [qInMistake, qMastered] "m" 0 qInMistake (by decide)⟩

/-! ## C6 -/

/-- Mapping raw records preserves the length. -/
theorem importRaws_length (uuid : Nat → String) (k : Nat)
    (raws : List RawQuestion) :
    (importRaws uuid k raws).length = raws.length := by
  induction raws generalizing k with
  | nil => rfl
  | cons r rs ih => simp [importRaws, ih]

/-- Position `i` of the imported list is the conversion of position `i` of
the raw list, with the `k + i`-th fresh UUID. -/
theorem importRaws_getElem? (uuid : Nat → String) (raws : List RawQuestion)
    (k i : Nat) :
    (importRaws uuid k raws)[i]? = (raws[i]?).map (convertRaw uuid (k + i)) := by
  induction raws generalizing k i with
  | nil => simp [importRaws]
  | cons r rs ih =>
      cases i with
      | zero => simp [importRaws]
      | succ n =>
          have h : k + (n + 1) = (k + 1) + n := by omega
          simp only [importRaws, List.getElem?_cons_succ, h, ih]

/-- Every member of an imported list converts some raw record. -/
theorem mem_importRaws (uuid : Nat → String) (k : Nat)
    (raws : List RawQuestion) (q : Question)
    (h : q ∈ importRaws uuid k raws) :
    ∃ n r, r ∈ raws ∧ q = convertRaw uuid n r := by
  induction raws generalizing k with
  | nil => cases h
  | cons r rs ih =>
      simp only [importRaws, List.mem_cons] at h
      rcases h with h | h
      · exact ⟨k, r, List.mem_cons_self r rs, h⟩
      · obtain ⟨n, r', hr', hq⟩ := ih (k + 1) h
        exact ⟨n, r', List.mem_cons_of_mem _ hr', hq⟩

/-- A JSON-imported question always carries cleared progress flags. -/
theorem convertRaw_flags (uuid : Nat → String) (n : Nat) (r : RawQuestion) :
    (convertRaw uuid n r).mastered = false
      ∧ (convertRaw uuid n r).inMistakeBook = false :=
  ⟨rfl, rfl⟩

/-- A JSON-imported question has a nonempty id whenever the UUID supply
produces nonempty strings. -/
theorem convertRaw_id_ne (uuid : Nat → String) (n : Nat) (r : RawQuestion)
    (hu : ∀ m, uuid m ≠ "") : (convertRaw uuid n r).id ≠ "" := by
  cases hr : r.id with
  | none => simpa [convertRaw, jsStr, hr] using hu n
  | some s =>
      by_cases hs : s = ""
      · simpa [convertRaw, jsStr, hr, hs] using hu n
      · simpa [convertRaw, jsStr, hr, hs] using hs

/-- C6: importing a valid JSON array of `N` records appends exactly `N`
questions to the bank, leaving the pre-existing questions unchanged; each
imported question has `mastered = false`, `inMistakeBook = false`, a
nonempty id, and when the raw record has no type the imported question gets
type `open-ended`. -/
theorem handleJsonImport_adds (uuid : Nat → String) (raws : List RawQuestion)
    (bank : List Question) (hu : ∀ n, uuid n ≠ "") :
    (handleJsonImport uuid raws).length = raws.length ∧
    (handleImport bank (handleJsonImport uuid raws)).take bank.length = bank ∧
    (handleImport bank (handleJsonImport uuid raws)).drop bank.length
        = handleJsonImport uuid raws ∧
    (∀ q ∈ handleJsonImport uuid raws,
        q.mastered = false ∧ q.inMistakeBook = false ∧ q.id ≠ "") ∧
    (∀ (i : Nat) (r : RawQuestion), raws[i]? = some r → r.type = none →
        (handleJsonImport uuid raws)[i]?.map Question.type
          = some (some "open-ended")) := by
  refine ⟨importRaws_length uuid 0 raws, ?_, ?_, ?_, ?_⟩
  · unfold handleImport
    exact List.take_left bank _
  · unfold handleImport
    exact List.drop_left bank _
  · intro q hq
    obtain ⟨n, r, _, rfl⟩ := mem_importRaws uuid 0 raws q hq
    exact ⟨rfl, rfl, convertRaw_id_ne uuid n r hu⟩
  · intro i r hr ht
    unfold handleJsonImport
    rw [importRaws_getElem?, hr]
    simp [convertRaw, jsStr, ht]

/-- C6, witness: importing one raw record with no id and no type. -/
theorem handleJsonImport_adds_witness :
    ((∀ n, uuidSample n ≠ "") ∧
      ((handleJsonImport uuidSample [rawSample]).length
          = ([rawSample] : List RawQuestion).length ∧
        (handleImport [qA] (handleJsonImport uuidSample [rawSample])).take
            ([qA] : List Question).length = [qA] ∧
        (handleImport [qA] (handleJsonImport uuidSample [rawSample])).drop
            ([qA] : List Question).length
          = handleJsonImport uuidSample [rawSample] ∧
        (∀ q ∈ handleJsonImport uuidSample [rawSample],
            q.mastered = false ∧ q.inMistakeBook = false ∧ q.id ≠ "") ∧
        (∀ (i : Nat) (r : RawQuestion),
            ([rawSample] : List RawQuestion)[i]? = some r → r.type = none →
            (handleJsonImport uuidSample [rawSample])[i]?.map Question.type
              = some (some "open-ended")))) :=
  ⟨fun _ => by unfold uuidSample; decide,
    handleJsonImport_adds uuidSample [rawSample] [qA]
      (fun _ => by unfold uuidSample; decide)⟩

/-! ## C7 -/

/-- C7: when the generative-text reply cannot be parsed as a JSON object
containing a `questions` array, both AI import operations (generate from
topic and parse raw text) surface an error string and leave the question
bank unchanged. -/
theorem aiImport_failure_keeps_bank (uuid : Nat → String)
    (bank : List Question) (reply : GeminiReply)
    (h : hasQuestionsArray reply = false) :
    (handleAiProcessing bank (generateQuestionsFromTopic uuid reply)).1 = bank ∧
    (handleAiProcessing bank (generateQuestionsFromTopic uuid reply)).2.isSome
        = true ∧
    (handleAiProcessing bank (parseRawTextToQuestions uuid reply)).1 = bank ∧
    (handleAiProcessing bank (parseRawTextToQuestions uuid reply)).2.isSome
        = true := by
  cases reply with
  | unparsable => exact ⟨rfl, rfl, rfl, rfl⟩
  | objNoQuestions => exact ⟨rfl, rfl, rfl, rfl⟩
  | questionsNonArray => exact ⟨rfl, rfl, rfl, rfl⟩
  | questionsArr raws => cases h

/-- C7, witness: an unparsable reply leaves a singleton bank alone and sets
the error in both AI import paths. -/
theorem aiImport_failure_keeps_bank_witness :
    (hasQuestionsArray GeminiReply.unparsable = false ∧
      ((handleAiProcessing [qA]
          (generateQuestionsFromTopic uuidSample GeminiReply.unparsable)).1
          = [qA] ∧
        (handleAiProcessing [qA]
          (generateQuestionsFromTopic uuidSample GeminiReply.unparsable)).2.isSome
          = true ∧
        (handleAiProcessing [qA]
          (parseRawTextToQuestions uuidSample GeminiReply.unparsable)).1
          = [qA] ∧
        (handleAiProcessing [qA]
          (parseRawTextToQuestions uuidSample GeminiReply.unparsable)).2.isSome
          = true)) :=
  ⟨rfl, aiImport_failure_keeps_bank uuidSample [qA] GeminiReply.unparsable rfl⟩

/-! ## C8 -/

/-- C8: every mutating operation (import, delete, mark-mastered,
mark-mistake, grade-exam) leaves the stored value under
`flashmaster_questions` equal to the serialisation of the current in-memory
question list. -/
theorem persistence_inSync (st : AppState) (h : inSync st)
    (newQs : List Question) (id1 id2 id3 : String) (wrongIds : List String) :
    inSync (appHandleImport st newQs) ∧
    inSync (appHandleDelete st id1) ∧
    inSync (appHandleMaster st id2) ∧
    inSync (appHandleMistake st id3) ∧
    inSync (appHandleExamComplete st wrongIds) := by
  refine ⟨rfl, rfl, rfl, rfl, ?_⟩
  unfold appHandleExamComplete
  by_cases he : wrongIds.isEmpty
  · simpa [he] using h
  · simp [he, inSync, saveQuestions]

/-- C8, witness: a concrete synchronised state stays synchronised under all
five operations. -/
theorem persistence_inSync_witness :
    (inSync stSample ∧
      (inSync (appHandleImport stSample [qB]) ∧
        inSync (appHandleDelete stSample "1") ∧
        inSync (appHandleMaster stSample "1") ∧
        inSync (appHandleMistake stSample "1") ∧
        inSync (appHandleExamComplete stSample ["1"]))) :=
  ⟨by decide, persistence_inSync stSample (by decide) [qB] "1" "1" "1" ["1"]⟩

/-! ## C9 -/

/-- C9: in the grading pass, every question for which no answer was recorded
(or whose recorded answer is the empty string) has its id included in the
missed-items list handed to the mistake book. -/
theorem unanswered_counted_wrong (qs : List Question)
    (answers : String → Option String) (q : Question) (hq : q ∈ qs)
    (ha : answers q.id = none ∨ answers q.id = some "") :
    q.id ∈ (handleSubmit qs answers).wrongIds := by
  have hp : answeredCorrectly answers q = false := by
    unfold answeredCorrectly
    rcases ha with h | h <;> rw [h] <;> rfl
  unfold handleSubmit
  simp only [gradePass_eq]
  exact List.mem_map.mpr ⟨q, List.mem_filter.mpr ⟨hq, by simp [hp]⟩, rfl⟩

/-- C9, witness: the unanswered third question of the sample exam lands in
the missed list. -/
theorem unanswered_counted_wrong_witness :
    (qC ∈ ([qA, qB, qC] : List Question) ∧
      (ansSample qC.id = none ∨ ansSample qC.id = some "") ∧
      qC.id ∈ (handleSubmit [qA, qB, qC] ansSample).wrongIds) :=
  ⟨by decide, Or.inl (by decide),
    unanswered_counted_wrong [qA, qB, qC] ansSample qC (by decide)
      (Or.inl (by decide))⟩

/-! ## C10 -/

/-- An AI-imported question always carries cleared progress flags. -/
theorem mem_importAiRaws_flags (uuid : Nat → String) (k : Nat)
    (raws : List RawQuestion) (q : Question)
    (h : q ∈ importAiRaws uuid k raws) :
    q.mastered = false ∧ q.inMistakeBook = false := by
  induction raws generalizing k with
  | nil => cases h
  | cons r rs ih =>
      simp only [importAiRaws, List.mem_cons] at h
      rcases h with h | h
      · subst h; exact ⟨rfl, rfl⟩
      · exact ih (k + 1) h

/-- C10: every operation that changes question flags (mark-mastered,
mark-mistake, grade-exam, the JSON import and both AI imports) preserves the
invariant that no question has both `mastered` and `inMistakeBook` true. -/
theorem flagsExclusive_preserved (bank : List Question)
    (h : flagsExclusive bank) (id1 id2 : String) (wrongIds : List String)
    (uuid : Nat → String) (raws : List RawQuestion) (reply : GeminiReply) :
    flagsExclusive (handleMasterQuestion bank id1) ∧
    flagsExclusive (handleMistake bank id2) ∧
    flagsExclusive (handleExamComplete bank wrongIds) ∧
    flagsExclusive (handleImport bank (handleJsonImport uuid raws)) ∧
    flagsExclusive
      (handleAiProcessing bank (generateQuestionsFromTopic uuid reply)).1 ∧
    flagsExclusive
      (handleAiProcessing bank (parseRawTextToQuestions uuid reply)).1 := by
  have hAi : ∀ raws2 : List RawQuestion,
      flagsExclusive
        (handleAiProcessing bank (.ok (importAiRaws uuid 0 raws2))).1 := by
    intro raws2
    unfold handleAiProcessing
    by_cases he : (importAiRaws uuid 0 raws2).isEmpty
    · simpa [he] using h
    · simp only [he, Bool.false_eq_true, if_false]
      intro q hq
      rcases List.mem_append.mp hq with hmem | hmem
      · exact h q hmem
      · have := mem_importAiRaws_flags uuid 0 raws2 q hmem
        simp [this.1]
  refine ⟨?_, ?_, ?_, ?_, ?_, ?_⟩
  · intro q hq
    unfold handleMasterQuestion at hq
    obtain ⟨q0, hq0, rfl⟩ := List.mem_map.mp hq
    by_cases hid : q0.id = id1
    · simp [hid]
    · simpa [hid] using h q0 hq0
  · intro q hq
    unfold handleMistake at hq
    obtain ⟨q0, hq0, rfl⟩ := List.mem_map.mp hq
    by_cases hid : q0.id = id2
    · simp [hid]
    · simpa [hid] using h q0 hq0
  · intro q hq
    unfold handleExamComplete at hq
    by_cases he : wrongIds.isEmpty
    · rw [if_pos he] at hq
      exact h q hq
    · rw [if_neg he] at hq
      obtain ⟨q0, hq0, rfl⟩ := List.mem_map.mp hq
      by_cases hc : wrongIds.contains q0.id
      · have hm : q0.id ∈ wrongIds := by simpa using hc
        simp [hc, hm]
      · have hm : q0.id ∉ wrongIds := by simpa using hc
        simpa [hc, hm] using h q0 hq0
  · intro q hq
    unfold handleImport at hq
    rcases List.mem_append.mp hq with hmem | hmem
    · exact h q hmem
    · obtain ⟨n, r, _, rfl⟩ := mem_importRaws uuid 0 raws q hmem
      simp [convertRaw]
  · cases reply with
    | unparsable => exact h
    | objNoQuestions => simpa [handleAiProcessing] using h
    | questionsNonArray => exact h
    | questionsArr raws2 => exact hAi raws2
  · cases reply with
    | unparsable => exact h
    | objNoQuestions => simpa [handleAiProcessing] using h
    | questionsNonArray => exact h
    | questionsArr raws2 => exact hAi raws2

/-- C10, witness: a concrete exclusive bank stays exclusive under all six
flag-touching operations. -/
theorem flagsExclusive_preserved_witness :
    (flagsExclusive [qInMistake, qMastered] ∧
      (flagsExclusive (handleMasterQuestion [qInMistake, qMastered] "m") ∧
        flagsExclusive (handleMistake [qInMistake, qMastered] "s") ∧
        flagsExclusive (handleExamComplete [qInMistake, qMastered] ["s"]) ∧
        flagsExclusive
          (handleImport [qInMistake, qMastered]
            (handleJsonImport uuidSample [rawSample])) ∧
        flagsExclusive
          (handleAiProcessing [qInMistake, qMastered]
            (generateQuestionsFromTopic uuidSample
              (GeminiReply.questionsArr [rawSample]))).1 ∧
        flagsExclusive
          (handleAiProcessing [qInMistake, qMastered]
            (parseRawTextToQuestions uuidSample
              (GeminiReply.questionsArr [rawSample]))).1)) :=
  ⟨by decide,
    flagsExclusive_preserved [qInMistake, qMastered] (by decide) "m" "s" ["s"]
      uuidSample [rawSample] (GeminiReply.questionsArr [rawSample])⟩

end FlashMaster
